import Mathlib

/-
Verification of column-physics kernels and coupling glue of the
performance-portable atmospheric model in this repository.

The development is a shallow embedding: the C++ kernels are translated
into Lean functions over exact rational (and, where the code exponentiates,
real) arithmetic. Machine floating-point `Real`/`double` values are modelled
by their exact rational values; a literal with an `f` suffix is modelled by
the binary32 value it denotes. SIMD packs are modelled at scalar
granularity (pack width 1): a column is a total function from the level
index to its value, matching the InputProvider concept of the source
(`operator()(int) -> Scalar`). A midpoint column has `nlev` meaningful
entries (indices 0..nlev-1), an interface column has `nlev+1`
(indices 0..nlev).

Sources embedded here:
  - Homme ColumnOps (ColumnOps.hpp): combine, sanity_check,
    compute_interface_values (both execution paths, weighted and
    unweighted), compute_interface_delta, column scans.
  - Homme EquationOfState (EquationOfState.hpp): compute_hydrostatic_p,
    compute_dpnh_dp_i.
  - Homme ElementOps (ElementOps.hpp): compute_hydrostatic_p,
    compute_theta_ref and its constants.
  - Homme Remap::RemapStateProvider (RemapStateProvider.hpp).
  - HommeDynamics::advance_iop_subsidence (eamxx_homme_iop.cpp).
  - scream_init / scream_run / scream_finalize FPE handling
    (legacy interop entry points).
  - the I/O subsystem driving test (input_output_basic).
-/

namespace E3SM

/-- CombineMode of the Homme kernels (HommexxEnums.hpp), as used by
`combine` and the ColumnOps operators. -/
inductive CombineMode where
  | Replace
  | Scale
  | Update
  | ScaleUpdate
  | ScaleAdd
  | Add
  | ProdUpdate
deriving DecidableEq, Repr

/-- Embedding of `Homme::combine` (ColumnOps.hpp): combines a new value
with an old one; in the most complete form performs
`result = beta*result + alpha*newVal`. Returns the new content of
`result`. -/
def combine (cm : CombineMode) (newVal result alpha beta : ℚ) : ℚ :=
  match cm with
  | .Replace     => newVal
  | .Scale       => alpha * newVal
  | .Update      => result * beta + newVal
  | .ScaleUpdate => result * beta + alpha * newVal
  | .ScaleAdd    => result + alpha * newVal
  | .Add         => result + newVal
  | .ProdUpdate  => result * newVal

/-- Embedding of `ColumnOps::needsAlpha`: the combine modes whose formula
uses the scale factor alpha. -/
def needsAlpha (cm : CombineMode) : Bool :=
  cm = .Scale || cm = .ScaleAdd || cm = .ScaleUpdate

/-- Embedding of `ColumnOps::needsBeta`: the combine modes whose formula
uses the scale factor beta. -/
def needsBeta (cm : CombineMode) : Bool :=
  cm = .Update || cm = .ScaleUpdate

/-- Embedding of `ColumnOps::sanity_check`: it runs
`Errors::runtime_check (needsAlpha<CM>() || alpha==1.0, ...)` and
`Errors::runtime_check (needsBeta<CM>() || beta==0.0, ...)`;
`runtime_check` aborts fatally when its condition is false. The result is
`true` exactly when a fatal error is triggered. Every ColumnOps
averaging/delta operator invokes `sanity_check<CM>(alpha,beta)` on entry. -/
def sanity_check_aborts (cm : CombineMode) (alpha beta : ℚ) : Bool :=
  !(needsAlpha cm || alpha == 1) || !(needsBeta cm || beta == 0)

/-- The combine mode discards alpha: the result of `combine` does not
depend on the alpha argument. -/
def DiscardsAlpha (cm : CombineMode) : Prop :=
  ∀ v r a₁ a₂ b, combine cm v r a₁ b = combine cm v r a₂ b

/-- The combine mode discards beta: the result of `combine` does not
depend on the beta argument. -/
def DiscardsBeta (cm : CombineMode) : Prop :=
  ∀ v r a b₁ b₂, combine cm v r a b₁ = combine cm v r a b₂

/-- Scalar/GPU path of `ColumnOps::compute_interface_values` (unweighted),
from the `OnGpu` branch of ColumnOps.hpp: a parallel loop over interfaces
`ilev = 1 .. NUM_PHYSICAL_LEV-1` combines `(x_m(ilev)+x_m(ilev-1))/2` into
`x_i(ilev)`, then a single thread fixes the top and bottom:
`combine(x_m(0), x_i(0))` and
`combine(x_m(NUM_PHYSICAL_LEV-1), x_i(NUM_INTERFACE_LEV-1))`.
`xi0` is the content of the output column before the call; the result maps
each interface index to its content after the call. -/
def compute_interface_values_gpu (cm : CombineMode) (alpha beta : ℚ)
    (nlev : ℕ) (xm xi0 : ℕ → ℚ) : ℕ → ℚ :=
  let afterLoop : ℕ → ℚ := fun k =>
    if 1 ≤ k ∧ k ≤ nlev - 1 then
      combine cm ((xm k + xm (k-1)) / 2) (xi0 k) alpha beta
    else xi0 k
  let afterTop : ℕ → ℚ := fun k =>
    if k = 0 then combine cm (xm 0) (afterLoop 0) alpha beta else afterLoop k
  fun k =>
    if k = nlev then combine cm (xm (nlev-1)) (afterTop nlev) alpha beta
    else afterTop k

/-- Wide-vector (SIMD) path of `ColumnOps::compute_interface_values`
(unweighted), from the CPU branch of ColumnOps.hpp, at pack width 1:
the pack loop over `ilev = 1 .. NUM_LEV-1` combines
`(x_m(ilev-1)+x_m(ilev))/2` into `x_i(ilev)`; the first pack combines
`(x_m(0) shifted right, i.e. 0, plus x_m(0))/2 = x_m(0)/2` into `x_i(0)`;
then the top/bottom fix combines `x_m(0)` into `x_i(0)` (a second combine
into the same entry) and `x_m(NUM_PHYSICAL_LEV-1)` into the last
interface. -/
def compute_interface_values_cpu (cm : CombineMode) (alpha beta : ℚ)
    (nlev : ℕ) (xm xi0 : ℕ → ℚ) : ℕ → ℚ :=
  let afterLoop : ℕ → ℚ := fun k =>
    if 1 ≤ k ∧ k ≤ nlev - 1 then
      combine cm ((xm (k-1) + xm k) / 2) (xi0 k) alpha beta
    else xi0 k
  let afterFirstPack : ℕ → ℚ := fun k =>
    if k = 0 then combine cm ((0 + xm 0) / 2) (afterLoop 0) alpha beta
    else afterLoop k
  let afterTopFix : ℕ → ℚ := fun k =>
    if k = 0 then combine cm (xm 0) (afterFirstPack 0) alpha beta
    else afterFirstPack k
  fun k =>
    if k = nlev then combine cm (xm (nlev-1)) (afterTopFix nlev) alpha beta
    else afterTopFix k

/-- Scalar/GPU path of the weighted `ColumnOps::compute_interface_values`,
from the `OnGpu` branch of ColumnOps.hpp: the interior loop combines
`(x_m(ilev)*w_m(ilev) + x_m(ilev-1)*w_m(ilev-1)) / (2*w_i(ilev))` into
`x_i(ilev)` for `ilev = 1 .. NUM_PHYSICAL_LEV-1`; then the single-thread
fix performs, in this order, `combine(x_m(0), x_i(0))` and
`combine(x_m(NUM_INTERFACE_LEV-1), x_i(NUM_PHYSICAL_LEV-1))` — note the
source reads the midpoint provider at index `NUM_INTERFACE_LEV-1 = nlev`
and writes interface `NUM_PHYSICAL_LEV-1 = nlev-1`, and never writes
interface `nlev`. -/
def compute_interface_values_wgpu (cm : CombineMode) (alpha beta : ℚ)
    (nlev : ℕ) (wm wi xm xi0 : ℕ → ℚ) : ℕ → ℚ :=
  let afterLoop : ℕ → ℚ := fun k =>
    if 1 ≤ k ∧ k ≤ nlev - 1 then
      combine cm ((xm k * wm k + xm (k-1) * wm (k-1)) / (2 * wi k)) (xi0 k)
        alpha beta
    else xi0 k
  let afterTop : ℕ → ℚ := fun k =>
    if k = 0 then combine cm (xm 0) (afterLoop 0) alpha beta else afterLoop k
  fun k =>
    if k = nlev - 1 then combine cm (xm nlev) (afterTop (nlev-1)) alpha beta
    else afterTop k

/-- Wide-vector (SIMD) path of the weighted
`ColumnOps::compute_interface_values`, from the CPU branch of
ColumnOps.hpp, at pack width 1: the pack loop combines
`(x_m(ilev-1)*w_m(ilev-1) + x_m(ilev)*w_m(ilev)) / (2*w_i(ilev))` into
`x_i(ilev)` for `ilev = 1 .. NUM_LEV-1`; the first pack combines
`(0 + x_m(0)*w_m(0)) / (2*w_i(0))` into `x_i(0)`; the top/bottom fix then
combines `x_m(0)` into `x_i(0)` and `x_m(NUM_PHYSICAL_LEV-1)` into the
last interface `x_i(nlev)`. -/
def compute_interface_values_wcpu (cm : CombineMode) (alpha beta : ℚ)
    (nlev : ℕ) (wm wi xm xi0 : ℕ → ℚ) : ℕ → ℚ :=
  let afterLoop : ℕ → ℚ := fun k =>
    if 1 ≤ k ∧ k ≤ nlev - 1 then
      combine cm ((xm (k-1) * wm (k-1) + xm k * wm k) / (2 * wi k)) (xi0 k)
        alpha beta
    else xi0 k
  let afterFirstPack : ℕ → ℚ := fun k =>
    if k = 0 then combine cm ((0 + xm 0 * wm 0) / (2 * wi 0)) (afterLoop 0)
      alpha beta
    else afterLoop k
  let afterTopFix : ℕ → ℚ := fun k =>
    if k = 0 then combine cm (xm 0) (afterFirstPack 0) alpha beta
    else afterFirstPack k
  fun k =>
    if k = nlev then combine cm (xm (nlev-1)) (afterTopFix nlev) alpha beta
    else afterTopFix k

/-- Forward exclusive column scan of `ColumnOps::column_scan_impl`
(Forward = true, Inclusive = false) at scalar granularity: the running
integral starts at `s0` and entry `k` of the output holds
`s0 + input(0) + ... + input(k-1)`, exactly the loop
`sum(0) = s0; sum(k+1) = sum(k) + input(k)` performed by the source. -/
def column_scan_fwd_exclusive (input : ℕ → ℚ) (s0 : ℚ) : ℕ → ℚ
  | 0 => s0
  | k + 1 => column_scan_fwd_exclusive input s0 k + input k

/-- Embedding of `ColumnOps::column_scan_mid_to_int<true>` (forward):
given the boundary value stored in `sum(0)` (here `s0`), performs
`sum(k+1) = sum(k) + provider(k)`, i.e. a forward exclusive scan over the
interfaces seeded with `s0`. -/
def column_scan_mid_to_int_fwd (input : ℕ → ℚ) (s0 : ℚ) : ℕ → ℚ :=
  column_scan_fwd_exclusive input s0

/-- Embedding of `EquationOfState::compute_hydrostatic_p` and
`ElementOps::compute_hydrostatic_p` restricted to the interface-pressure
output: the source sets `p_i(0)[0] = hvcoord.hybrid_ai0 * hvcoord.ps0`
(with `hybrid_ai0 = hyai(0)`) and then runs
`column_scan_mid_to_int<true>(kv, dp, p_i)`. `hyai0` and `ps0` are the
hybrid-coordinate inputs (HybridVCoord is initialized elsewhere and only
read here). -/
def compute_hydrostatic_p_i (hyai0 ps0 : ℚ) (dp : ℕ → ℚ) : ℕ → ℚ :=
  column_scan_mid_to_int_fwd dp (hyai0 * ps0)

/-- Embedding of `EquationOfState::compute_dpnh_dp_i`. In hydrostatic
mode the source sets every interface entry of `dpnh_dp_i` (all
`NUM_LEV_P` packs, i.e. indices `0..nlev`) to `1.0`. In non-hydrostatic
mode it runs, in order:
1. `compute_interface_delta<Replace,DoNothing>(pnh, dpnh_dp_i)`:
   interior interfaces `k = 1..nlev-1` receive `pnh(k) - pnh(k-1)`;
2. a loop over the first `NUM_LEV` packs dividing entry `k` by `dp_i(k)`
   for `k = 0..nlev-1`;
3. `dpnh_dp_i(0) = 2*(pnh(0) - hyai(0)*ps0)/dp_i(0)`;
4. with `pnh_i_last = pnh(nlev-1) + dp_i(nlev)/2`,
   `dpnh_dp_i(nlev) = 2*(pnh_i_last - pnh(nlev-1))/dp_i(nlev)`.
`init` is the content of the output column before the call (entries the
source never writes keep it). -/
def compute_dpnh_dp_i (hydrostatic : Bool) (hyai0 ps0 : ℚ) (nlev : ℕ)
    (pnh dp_i init : ℕ → ℚ) : ℕ → ℚ :=
  if hydrostatic then
    fun k => if k ≤ nlev then 1 else init k
  else
    let afterDelta : ℕ → ℚ := fun k =>
      if 1 ≤ k ∧ k ≤ nlev - 1 then pnh k - pnh (k-1) else init k
    let afterDiv : ℕ → ℚ := fun k =>
      if k ≤ nlev - 1 then afterDelta k / dp_i k else afterDelta k
    let afterTop : ℕ → ℚ := fun k =>
      if k = 0 then 2 * (pnh 0 - hyai0 * ps0) / dp_i 0 else afterDiv k
    fun k =>
      if k = nlev then
        let pnh_last := pnh (nlev-1)
        let dp_last := dp_i nlev
        let pnh_i_last := pnh_last + dp_last / 2
        2 * (pnh_i_last - pnh_last) / dp_last
      else afterTop k

/-- The constant `TREF = 288.0` of `ElementOps`. -/
def TREF : ℚ := 288

/-- The binary32 (single-precision float) value denoted by the literal
`0.0065f` in `ElementOps`: rounding 0.0065 to 24 significand bits gives
`13958644 * 2^(-31)` (since `0.0065 * 2^31 = 13958643.712`, whose nearest
integer `13958644` fits in 24 bits), which is not the rational
`13/2000 = 0.0065`. -/
def float0_0065 : ℚ := 13958644 / 2 ^ 31

/-- The constant `T1` of `ElementOps`, from the source line
`static constexpr Real T1 = 0.0065f*TREF*PhysicalConstants::cp/PhysicalConstants::g;` —
note the float literal `0.0065f`. `cp` and `g` are the physical constants
(defined in PhysicalConstants.hpp, passed here as parameters). -/
def elemOpsT1 (cp g : ℚ) : ℚ := float0_0065 * TREF * cp / g

/-- The constant `T0 = TREF - T1` of `ElementOps`. -/
def elemOpsT0 (cp g : ℚ) : ℚ := TREF - elemOpsT1 cp g

/-- The constant `T1` of `ElementOps` over the reals (same source line as
`elemOpsT1`, for use where the code exponentiates). -/
noncomputable def elemOpsT1R (cp g : ℝ) : ℝ := (float0_0065 : ℝ) * (TREF : ℝ) * cp / g

/-- The constant `T0 = TREF - T1` of `ElementOps` over the reals. -/
noncomputable def elemOpsT0R (cp g : ℝ) : ℝ := (TREF : ℝ) - elemOpsT1R cp g

/-- Embedding of `ElementOps::compute_theta_ref` at one level: the source
first stores `exner = pow(p/p0, kappa)` in `theta_ref`, then overwrites it
with `T0/theta_ref + T1`. Exponentiation forces real arithmetic here;
`cp`, `g`, `kappa`, `p0` are physical constants passed as parameters. -/
noncomputable def compute_theta_ref (cp g kappa p0 : ℝ) (p : ℝ) : ℝ :=
  let exner : ℝ := (p / p0) ^ kappa
  elemOpsT0R cp g / exner + elemOpsT1R cp g

/-- `RemapStateProvider::num_states_remap`: the number of remappable
state variables. -/
def num_states_remap : ℕ := 5

/-- Embedding of `RemapStateProvider::is_intrinsic_state`: returns true
exactly for the two horizontal-velocity indices 3 and 4 (the source
asserts `0 <= istate < num_states_remap` and returns
`istate==3 || istate==4`). -/
def is_intrinsic_state (istate : ℕ) : Bool :=
  istate = 3 || istate = 4

/-- Interface interpolant of `HommeDynamics::advance_iop_subsidence`
(eamxx_homme_iop.cpp): for interfaces `k = 1..nlevs-1`,
`weight = (pint(k) - pmid(k-1)) / (pmid(k) - pmid(k-1))` and
`omega_int(k) = weight*omega(k) + (1-weight)*omega(k-1)`; afterwards the
source forces `omega_int(0) = 0` and `omega_int(nlevs) = 0`. -/
def iop_omega_int (nlevs : ℕ) (pmid pint omega : ℕ → ℚ) : ℕ → ℚ :=
  fun k =>
    if k = 0 then 0
    else if k = nlevs then 0
    else if k ≤ nlevs - 1 then
      let weight := (pint k - pmid (k-1)) / (pmid k - pmid (k-1))
      weight * omega k + (1 - weight) * omega (k-1)
    else 0

/-- Midpoint delta of `ColumnOps::compute_midpoint_delta` as invoked by
`advance_iop_subsidence` with `nlevs-1` levels:
`delta(k) = x(k+1) - x(k)` for `k = 0..nlevs-2`. -/
def iop_midpoint_delta (x : ℕ → ℚ) : ℕ → ℚ :=
  fun k => x (k+1) - x k

/-- Per-quantity subsidence update of `advance_iop_subsidence`: the
source clamps the index pack to at least 1
(`range_pack_m1.set(range_pack_m1<1, 1)`) and gathers both delta values
from it via `index_and_shift<-1>(s_delta, range_pack_m1, delta_k,
delta_km1)`, whose first output is the value at the given index and
whose second is the value shifted by -1 (compare the unclamped
`index_and_shift<1>(s_omega_int, range_pack, omega_int_k,
omega_int_kp1)` gathering `omega_int(k)` and `omega_int(k+1)`). So with
`kc = max(k,1)`, `delta_k = delta(kc)` — at the top level `delta(1)`,
not `delta(0)` — and `delta_km1 = delta(kc-1)`. With
`fac = dt/(2*pdel(k))` the source then performs three masked
assignments, in order: for `at_top` (`k = 0`) subtract
`fac*omega_int(k+1)*delta_k`; for `at_bot` (`k = nlevs-1`) subtract
`fac*omega_int(k)*delta_km1`; otherwise subtract
`fac*(omega_int(k+1)*delta_k + omega_int(k)*delta_km1)`. A later masked
assignment overwrites an earlier one, so when `nlevs = 1` the `at_bot`
form wins; levels `k ≥ nlevs` are not touched. -/
def iop_subs_update (nlevs : ℕ) (dt : ℚ) (pdel omega_int delta x : ℕ → ℚ)
    (k : ℕ) : ℚ :=
  let kc := max k 1
  let delta_k := delta kc
  let delta_km1 := delta (kc - 1)
  let fac := dt / (2 * pdel k)
  if k = nlevs - 1 then x k - fac * (omega_int k * delta_km1)
  else if k = 0 then x k - fac * (omega_int (k+1) * delta_k)
  else if k < nlevs then
    x k - fac * (omega_int (k+1) * delta_k + omega_int k * delta_km1)
  else x k

/-- Result record of `advance_iop_subsidence`: the updated `u`, `v`, `T`
and tracers `Q`. -/
structure IopSubsidenceResult where
  u : ℕ → ℚ
  v : ℕ → ℚ
  T : ℕ → ℚ
  Q : ℕ → ℕ → ℚ

/-- Embedding of `HommeDynamics::advance_iop_subsidence`
(eamxx_homme_iop.cpp) at pack width 1. `Rair`, `Cpair` are the physical
constants (physics::Constants). It computes `omega_int` by the weighted
interface interpolation with zero top/bottom, the midpoint deltas of `u`,
`v`, `T` and each tracer, applies the subsidence update to each quantity
and finally adds the adiabatic-expansion correction
`dt*omega(k)*T_k*Rair/(Cpair*pmid(k))` to the updated temperature, where
`T_k` is the temperature before the update (the source saves
`const auto T_k = T(k);` before its masked assignments). -/
def advance_iop_subsidence (Rair Cpair : ℚ) (nlevs : ℕ) (dt : ℚ)
    (pmid pint pdel omega : ℕ → ℚ) (u v T : ℕ → ℚ) (Q : ℕ → ℕ → ℚ) :
    IopSubsidenceResult :=
  let omega_int := iop_omega_int nlevs pmid pint omega
  let delta_u := iop_midpoint_delta u
  let delta_v := iop_midpoint_delta v
  let delta_T := iop_midpoint_delta T
  { u := iop_subs_update nlevs dt pdel omega_int delta_u u
    v := iop_subs_update nlevs dt pdel omega_int delta_v v
    T := fun k =>
      let updated := iop_subs_update nlevs dt pdel omega_int delta_T T k
      if k < nlevs then
        updated + dt * omega k * T k * Rair / (Cpair * pmid k)
      else updated
    Q := fun iq => iop_subs_update nlevs dt pdel omega_int
      (iop_midpoint_delta (Q iq)) (Q iq) }

/-- Modelled from the spec: the floating-point-exception (FPE) trap-mask
primitives used by the legacy interop entry points
(`get_enabled_fpes`, `disable_all_fpes`, `enable_fpes`,
`enable_default_fpes`) are provided by the runtime utility library, whose
implementation is not among the given sources. Per the spec, the state is
the set of enabled FPE traps, modelled as a bitmask: `get_enabled_fpes`
reads it, `disable_all_fpes` clears it, `enable_fpes(mask)` enables the
traps of `mask` (bitwise or), and `enable_default_fpes` enables the
default set (invalid, divide-by-zero, overflow, underflow), a nonzero
mask passed here as the parameter `defaultFpes`. Each entry point is
modelled as the pair (mask in force during the call into the driver,
mask restored on return). `scream_init` reads the entry mask, disables
all FPEs, runs session setup and `ad.initialize`, then disables all FPEs
and re-enables the saved mask. -/
def scream_init_fpe (entryMask : ℕ) : ℕ × ℕ :=
  let fpe_mask := entryMask
  let s1 : ℕ := 0
  let s2 : ℕ := 0
  let s3 : ℕ := s2 ||| fpe_mask
  (s1, s3)

/-- Modelled from the spec (see `scream_init_fpe` for the primitives):
`scream_run` reads the entry mask, disables all FPEs, enables the default
FPEs, runs `ad.run(dt)`, then disables all FPEs and re-enables the saved
mask. -/
def scream_run_fpe (defaultFpes entryMask : ℕ) : ℕ × ℕ :=
  let fpe_mask := entryMask
  let s1 : ℕ := 0
  let s2 : ℕ := s1 ||| defaultFpes
  let s3 : ℕ := 0
  let s4 : ℕ := s3 ||| fpe_mask
  (s2, s4)

/-- Modelled from the spec (see `scream_init_fpe` for the primitives):
`scream_finalize` reads the entry mask, disables all FPEs, enables the
default FPEs, runs `ad.finalize` and teardown, then disables all FPEs and
re-enables the saved mask. -/
def scream_finalize_fpe (defaultFpes entryMask : ℕ) : ℕ × ℕ :=
  let fpe_mask := entryMask
  let s1 : ℕ := 0
  let s2 : ℕ := s1 ||| defaultFpes
  let s3 : ℕ := 0
  let s4 : ℕ := s3 ||| fpe_mask
  (s2, s4)

/-- The default FPE trap set of the spec (invalid, divide-by-zero,
overflow, underflow), one bit each in this model. -/
def defaultFpesSpec : ℕ := 1 + 2 + 4 + 8

/-- The driving loop of the I/O test `input_output_basic`: starting from
the field value `v`, each of the `n` steps first adds `dt = 1.0` to the
field and then hands it to `OutputManager::run`; the returned list holds
the sampled values, in order. -/
def io_test_samples (v : ℚ) : ℕ → List ℚ
  | 0 => []
  | n + 1 => (v + 1) :: io_test_samples (v + 1) n

/-- In the I/O test, the 1-d output field `field_1` is initialized to the
column index: column `ii` starts at value `ii`. -/
def io_test_init (ii : ℚ) : ℚ := ii

/-- Modelled from the spec: the Instant reduction of the I/O subsystem
(implementation not among the given sources) is a direct copy of the most
recently sampled value. -/
def io_instant (init : ℚ) (samples : List ℚ) : ℚ :=
  samples.getLastD init

/-- Modelled from the spec: the Average reduction keeps a running sum and
count over the sampled values and divides on output. -/
def io_average (samples : List ℚ) : ℚ :=
  samples.foldl (· + ·) 0 / samples.length

/-- Modelled from the spec: the Max reduction keeps a running comparison,
seeded with the field value when the output manager is initialized. -/
def io_max (init : ℚ) (samples : List ℚ) : ℚ :=
  samples.foldl max init

/-- Modelled from the spec: the Min reduction keeps a running comparison,
seeded with the field value when the output manager is initialized. -/
def io_min (init : ℚ) (samples : List ℚ) : ℚ :=
  samples.foldl min init

/-! Theorems. -/

theorem discards_alpha_iff (cm : CombineMode) :
    DiscardsAlpha cm ↔ needsAlpha cm = false := by
  constructor
  · intro h
    cases cm <;> first
      | rfl
      | (exfalso; have h10 := h 1 0 0 1 0; simp [combine] at h10)
  · intro hn v r a₁ a₂ b
    cases cm <;> simp_all [combine, needsAlpha]

theorem discards_beta_iff (cm : CombineMode) :
    DiscardsBeta cm ↔ needsBeta cm = false := by
  constructor
  · intro h
    cases cm <;> first
      | rfl
      | (exfalso; have h10 := h 0 1 0 0 1; simp [combine] at h10)
  · intro hn v r a b₁ b₂
    cases cm <;> simp_all [combine, needsBeta]

/-- C8: for every ColumnOps averaging/scan/delta operator invocation,
supplying alpha different from 1.0 under a combine mode that discards
alpha, or beta different from 0.0 under a combine mode that discards
beta, triggers an immediately-reported fatal error (runtime_check inside
sanity_check); every valid combine-mode/alpha/beta pairing triggers no
error. Discarding is stated semantically: the combine formula does not
depend on the respective factor. -/
theorem C8_sanity_check_aborts_iff (cm : CombineMode) (alpha beta : ℚ) :
    sanity_check_aborts cm alpha beta = true ↔
      ((DiscardsAlpha cm ∧ alpha ≠ 1) ∨ (DiscardsBeta cm ∧ beta ≠ 0)) := by
  rw [discards_alpha_iff, discards_beta_iff]
  cases cm <;>
    simp [sanity_check_aborts, needsAlpha, needsBeta]

/-- C7: RemapStateProvider reports exactly 5 remappable state variables,
and is_intrinsic_state is true for the horizontal-velocity indices 3 and
4 and false for indices 0, 1, 2. -/
theorem C7_remap_intrinsic_states :
    num_states_remap = 5 ∧
    is_intrinsic_state 0 = false ∧
    is_intrinsic_state 1 = false ∧
    is_intrinsic_state 2 = false ∧
    is_intrinsic_state 3 = true ∧
    is_intrinsic_state 4 = true := by
  decide

/-- C9 counterexample: the claim that all three legacy entry points
disable FPE trapping for the duration of the call into the driver fails
on scream_run, which instead enables the default FPE set: with the
spec default trap set and a caller mask of 0, the mask in force during
ad.run is nonzero. -/
theorem C9_counterexample_run_enables_default_fpes :
    (scream_run_fpe defaultFpesSpec 0).1 ≠ 0 := by
  decide

/-- C9 (amended): scream_init disables FPE trapping for the duration of
the call into the driver; scream_run and scream_finalize instead put the
default FPE trap set in force for the duration; all three restore the
caller FPE mask to its entry value before returning. -/
theorem C9_fpe_mask_amended (d e : ℕ) :
    (scream_init_fpe e).1 = 0 ∧ (scream_init_fpe e).2 = e ∧
    (scream_run_fpe d e).1 = d ∧ (scream_run_fpe d e).2 = e ∧
    (scream_finalize_fpe d e).1 = d ∧ (scream_finalize_fpe d e).2 = e := by
  simp [scream_init_fpe, scream_run_fpe, scream_finalize_fpe]

/-- C10: for every midpoint column, compute_interface_values (unweighted,
CombineMode::Replace, on both execution paths) sets the top interface to
x_m(0) and the bottom interface to x_m(NLEV-1) — a copy of the single
adjacent midpoint, not an average — while every interior interface k with
0 < k < NLEV receives (x_m(k) + x_m(k-1))/2. -/
theorem C10_interface_values_boundary_copy (nlev k : ℕ) (xm xi0 : ℕ → ℚ)
    (hn : 1 ≤ nlev) (hk0 : 0 < k) (hk : k < nlev) :
    compute_interface_values_gpu .Replace 1 0 nlev xm xi0 0 = xm 0 ∧
    compute_interface_values_cpu .Replace 1 0 nlev xm xi0 0 = xm 0 ∧
    compute_interface_values_gpu .Replace 1 0 nlev xm xi0 nlev = xm (nlev-1) ∧
    compute_interface_values_cpu .Replace 1 0 nlev xm xi0 nlev = xm (nlev-1) ∧
    compute_interface_values_gpu .Replace 1 0 nlev xm xi0 k
      = (xm k + xm (k-1)) / 2 ∧
    compute_interface_values_cpu .Replace 1 0 nlev xm xi0 k
      = (xm k + xm (k-1)) / 2 := by
  unfold compute_interface_values_gpu compute_interface_values_cpu
  simp only [combine]
  have hkn : ¬ (k = nlev) := by omega
  have hk0' : ¬ (k = 0) := by omega
  have h0n : ¬ ((0:ℕ) = nlev) := by omega
  have hkin : 1 ≤ k ∧ k ≤ nlev - 1 := by omega
  refine ⟨by simp [h0n], by simp [h0n], by simp, by simp,
    by simp [hkn, hk0', hkin], ?_⟩
  simp [hkn, hk0', hkin]
  ring

/-- C10 witness: the theorem applied at nlev = 3, k = 1, a concrete
midpoint column and a zero initial interface column. -/
theorem C10_witness :
    1 ≤ 3 ∧ 0 < 1 ∧ 1 < 3 ∧
    compute_interface_values_gpu .Replace 1 0 3 (fun n => (n : ℚ))
      (fun _ => 0) 0 = 0 ∧
    compute_interface_values_cpu .Replace 1 0 3 (fun n => (n : ℚ))
      (fun _ => 0) 3 = 2 ∧
    compute_interface_values_gpu .Replace 1 0 3 (fun n => (n : ℚ))
      (fun _ => 0) 1 = 1/2 := by
  have h := C10_interface_values_boundary_copy 3 1 (fun n => (n : ℚ))
    (fun _ => 0) (by norm_num) (by norm_num) (by norm_num)
  refine ⟨by norm_num, by norm_num, by norm_num, ?_, ?_, ?_⟩
  · simpa using h.1
  · simpa using h.2.2.2.1
  · simpa using h.2.2.2.2.1

/-- C2: evaluation of the two execution paths of
compute_interface_values at concrete inputs, exhibiting that they do not
write identical values to every interface entry. Weighted variant,
CombineMode::Replace, nlev = 3, unit weights, midpoint column
x_m(n) = n, zero initial interface column: the wide-vector path writes
3/2 at interface 2 and x_m(2) = 2 at the bottom interface 3, while the
scalar/GPU path overwrites interface 2 with the out-of-range midpoint
value x_m(3) = 3 and never writes the bottom interface (which keeps its
initial value 0). Unweighted variant, CombineMode::Add (a pairing the
sanity check accepts), midpoint column x_m(n) = n+1: the wide-vector path
accumulates into the top interface twice (x_m(0)/2 from the first pack,
then x_m(0) from the top fix, total 3/2) while the scalar/GPU path
accumulates once (total 1). -/
theorem C2_paths_differ_at_concrete_input :
    compute_interface_values_wcpu .Replace 1 0 3 (fun _ => 1) (fun _ => 1)
      (fun n => (n : ℚ)) (fun _ => 0) 2 = 3/2 ∧
    compute_interface_values_wgpu .Replace 1 0 3 (fun _ => 1) (fun _ => 1)
      (fun n => (n : ℚ)) (fun _ => 0) 2 = 3 ∧
    compute_interface_values_wcpu .Replace 1 0 3 (fun _ => 1) (fun _ => 1)
      (fun n => (n : ℚ)) (fun _ => 0) 3 = 2 ∧
    compute_interface_values_wgpu .Replace 1 0 3 (fun _ => 1) (fun _ => 1)
      (fun n => (n : ℚ)) (fun _ => 0) 3 = 0 ∧
    compute_interface_values_cpu .Add 1 0 3 (fun n => (n : ℚ) + 1)
      (fun _ => 0) 0 = 3/2 ∧
    compute_interface_values_gpu .Add 1 0 3 (fun n => (n : ℚ) + 1)
      (fun _ => 0) 0 = 1 := by
  refine ⟨?_, ?_, ?_, ?_, ?_, ?_⟩ <;>
    simp [compute_interface_values_wcpu, compute_interface_values_wgpu,
      compute_interface_values_cpu, compute_interface_values_gpu, combine] <;>
    norm_num

/-- C3: for every layer-thickness column dp (in particular any column
with positive entries), compute_hydrostatic_p produces an
interface-pressure column whose top interface equals hyai(0)*ps0 exactly
and which satisfies p_i(k+1) = p_i(k) + dp(k) at every level k below
nlev. -/
theorem C3_hydrostatic_p_scan (hyai0 ps0 : ℚ) (nlev k : ℕ) (dp : ℕ → ℚ)
    (hpos : 0 < dp k) (hk : k < nlev) :
    compute_hydrostatic_p_i hyai0 ps0 dp 0 = hyai0 * ps0 ∧
    compute_hydrostatic_p_i hyai0 ps0 dp (k+1)
      = compute_hydrostatic_p_i hyai0 ps0 dp k + dp k :=
  ⟨rfl, rfl⟩

/-- C3 witness: the theorem applied at hyai0 = 1/50, ps0 = 100000,
nlev = 3, dp constantly 100, k = 1. -/
theorem C3_witness :
    (0 : ℚ) < 100 ∧ 1 < 3 ∧
    compute_hydrostatic_p_i (1/50) 100000 (fun _ => 100) 0 = 2000 ∧
    compute_hydrostatic_p_i (1/50) 100000 (fun _ => 100) 2
      = compute_hydrostatic_p_i (1/50) 100000 (fun _ => 100) 1 + 100 := by
  have h := C3_hydrostatic_p_scan (1/50) 100000 3 1 (fun _ => 100)
    (by norm_num) (by norm_num)
  refine ⟨by norm_num, by norm_num, ?_, ?_⟩
  · rw [h.1]; norm_num
  · simpa using h.2

/-- C4: compute_dpnh_dp_i sets every interface entry to 1.0 in
hydrostatic mode (stated for an arbitrary interface index m ≤ nlev, and
in particular for the top interface 0, the bottom interface nlev and an
interior interface k); in non-hydrostatic mode each interior interface k
(0 < k < nlev) equals (pnh(k) - pnh(k-1))/dp_i(k), the top interface is
2*(pnh(0) - hyai(0)*ps0)/dp_i(0), using the boundary value
pnh_i = hyai(0)*ps0, and the bottom interface is the one-sided
extrapolation 2*(pnh_i_last - pnh_last)/dp_i(nlev) with
pnh_i_last = pnh_last + dp_i(nlev)/2, which forces its value to 1. -/
theorem C4_dpnh_dp_i_spec (hyai0 ps0 : ℚ) (nlev k m : ℕ)
    (pnh dp_i init : ℕ → ℚ)
    (h2 : 2 ≤ nlev) (hk1 : 1 ≤ k) (hk : k ≤ nlev - 1)
    (hkn : k ≤ nlev) (hm : m ≤ nlev) (hdp : dp_i nlev ≠ 0) :
    compute_dpnh_dp_i true hyai0 ps0 nlev pnh dp_i init m = 1 ∧
    compute_dpnh_dp_i true hyai0 ps0 nlev pnh dp_i init 0 = 1 ∧
    compute_dpnh_dp_i true hyai0 ps0 nlev pnh dp_i init nlev = 1 ∧
    compute_dpnh_dp_i true hyai0 ps0 nlev pnh dp_i init k = 1 ∧
    compute_dpnh_dp_i false hyai0 ps0 nlev pnh dp_i init k
      = (pnh k - pnh (k-1)) / dp_i k ∧
    compute_dpnh_dp_i false hyai0 ps0 nlev pnh dp_i init 0
      = 2 * (pnh 0 - hyai0 * ps0) / dp_i 0 ∧
    compute_dpnh_dp_i false hyai0 ps0 nlev pnh dp_i init nlev
      = 2 * ((pnh (nlev-1) + dp_i nlev / 2) - pnh (nlev-1)) / dp_i nlev ∧
    compute_dpnh_dp_i false hyai0 ps0 nlev pnh dp_i init nlev = 1 := by
  unfold compute_dpnh_dp_i
  have hkn' : ¬ (k = nlev) := by omega
  have hk0 : ¬ (k = 0) := by omega
  have h0n : ¬ ((0:ℕ) = nlev) := by omega
  have hki : 1 ≤ k ∧ k ≤ nlev - 1 := ⟨hk1, hk⟩
  refine ⟨by simp [hm], by simp, by simp,
    by simp [hkn.trans (le_refl nlev)], by simp [hkn', hk0, hki, hk],
    by simp [h0n], by simp, ?_⟩
  simp only [if_pos rfl, Bool.false_eq_true, if_false]
  field_simp
  ring

/-- C4 witness: the theorem applied at nlev = 2, k = 1, m = 2, constant
columns pnh = 5, dp_i = 1 and zero initial output, so the hydrostatic
value 1.0 is exhibited at the top, interior and bottom interfaces. -/
theorem C4_witness :
    2 ≤ 2 ∧ (1:ℕ) ≤ 1 ∧ (1:ℕ) ≤ 2 - 1 ∧ (1:ℕ) ≤ 2 ∧ (2:ℕ) ≤ 2 ∧
    ((1:ℚ) ≠ 0) ∧
    compute_dpnh_dp_i true (1/50) 100000 2 (fun _ => 5) (fun _ => 1)
      (fun _ => 0) 0 = 1 ∧
    compute_dpnh_dp_i true (1/50) 100000 2 (fun _ => 5) (fun _ => 1)
      (fun _ => 0) 1 = 1 ∧
    compute_dpnh_dp_i true (1/50) 100000 2 (fun _ => 5) (fun _ => 1)
      (fun _ => 0) 2 = 1 ∧
    compute_dpnh_dp_i false (1/50) 100000 2 (fun _ => 5) (fun _ => 1)
      (fun _ => 0) 1 = 0 ∧
    compute_dpnh_dp_i false (1/50) 100000 2 (fun _ => 5) (fun _ => 1)
      (fun _ => 0) 2 = 1 := by
  have h := C4_dpnh_dp_i_spec (1/50) 100000 2 1 2 (fun _ => 5)
    (fun _ => 1) (fun _ => 0) (by norm_num) (by norm_num) (by norm_num)
    (by norm_num) (by norm_num) (by norm_num)
  refine ⟨by norm_num, by norm_num, by norm_num, by norm_num, by norm_num,
    by norm_num, ?_, ?_, ?_, ?_, ?_⟩
  · simpa using h.2.1
  · simpa using h.2.2.2.1
  · simpa using h.1
  · have hi := h.2.2.2.2.1
    rw [hi]; norm_num
  · simpa using h.2.2.2.2.2.2.2

theorem iop_subs_update_top (nlevs : ℕ) (dt : ℚ)
    (pdel omega_int delta x : ℕ → ℚ) (h2 : 2 ≤ nlevs) :
    iop_subs_update nlevs dt pdel omega_int delta x 0
      = x 0 - dt / (2 * pdel 0) * (omega_int 1 * delta 1) := by
  unfold iop_subs_update
  have h : ¬ ((0:ℕ) = nlevs - 1) := by omega
  simp [h]

theorem iop_subs_update_bot (nlevs : ℕ) (dt : ℚ)
    (pdel omega_int delta x : ℕ → ℚ) (h2 : 2 ≤ nlevs) :
    iop_subs_update nlevs dt pdel omega_int delta x (nlevs - 1)
      = x (nlevs - 1) - dt / (2 * pdel (nlevs - 1))
          * (omega_int (nlevs - 1) * delta (nlevs - 1 - 1)) := by
  unfold iop_subs_update
  have h : max (nlevs - 1) 1 = nlevs - 1 := by omega
  simp [h]

theorem iop_subs_update_interior (nlevs j : ℕ) (dt : ℚ)
    (pdel omega_int delta x : ℕ → ℚ) (hj1 : 1 ≤ j) (hj : j < nlevs - 1) :
    iop_subs_update nlevs dt pdel omega_int delta x j
      = x j - dt / (2 * pdel j)
          * (omega_int (j+1) * delta j + omega_int j * delta (j-1)) := by
  unfold iop_subs_update
  have ha : ¬ (j = nlevs - 1) := by omega
  have hb : ¬ (j = 0) := by omega
  have hc : j < nlevs := by omega
  have hd : max j 1 = j := by omega
  simp [ha, hb, hc, hd]

/-- C5 (amended): advance_iop_subsidence interpolates omega to
interfaces with weight = (p_int(k) - p_mid(k-1))/(p_mid(k) - p_mid(k-1))
between the two neighboring midpoints, forces the top and bottom
interface values of the interpolant to zero, and updates u, v, T and
every tracer at interior layer j by subtracting dt/(2*dp(j)) *
[omega_int(j+1)*DeltaX(j) + omega_int(j)*DeltaX(j-1)] (DeltaX the
midpoint-to-midpoint layer difference); the bottom layer keeps only the
j-1 term, while the top layer keeps only the j+1 term but — because the
source gathers the deltas at the index clamped to at least 1 — that term
uses DeltaX(1) = X(2) - X(1), not DeltaX(0); the temperature
additionally receives dt*omega(j)*T(j)*Rair/(Cpair*p_mid(j)) with T(j)
the pre-update temperature. Stated for an interior interface k, an
interior layer j and tracer iq. -/
theorem C5_advance_iop_subsidence_amended (Rair Cpair : ℚ) (nlevs k j iq : ℕ)
    (dt : ℚ) (pmid pint pdel omega u v T : ℕ → ℚ) (Q : ℕ → ℕ → ℚ)
    (h2 : 2 ≤ nlevs) (hk1 : 1 ≤ k) (hk : k ≤ nlevs - 1)
    (hj1 : 1 ≤ j) (hj : j < nlevs - 1) :
    (iop_omega_int nlevs pmid pint omega 0 = 0 ∧
     iop_omega_int nlevs pmid pint omega nlevs = 0 ∧
     iop_omega_int nlevs pmid pint omega k
       = ((pint k - pmid (k-1)) / (pmid k - pmid (k-1))) * omega k
         + (1 - (pint k - pmid (k-1)) / (pmid k - pmid (k-1))) * omega (k-1)) ∧
    (advance_iop_subsidence Rair Cpair nlevs dt pmid pint pdel omega u v T Q).u j
      = u j - dt / (2 * pdel j)
          * (iop_omega_int nlevs pmid pint omega (j+1) * (u (j+1) - u j)
             + iop_omega_int nlevs pmid pint omega j * (u j - u (j-1))) ∧
    (advance_iop_subsidence Rair Cpair nlevs dt pmid pint pdel omega u v T Q).u 0
      = u 0 - dt / (2 * pdel 0)
          * (iop_omega_int nlevs pmid pint omega 1 * (u 2 - u 1)) ∧
    (advance_iop_subsidence Rair Cpair nlevs dt pmid pint pdel omega u v T Q).u (nlevs-1)
      = u (nlevs-1) - dt / (2 * pdel (nlevs-1))
          * (iop_omega_int nlevs pmid pint omega (nlevs-1)
             * (u (nlevs-1) - u (nlevs-1-1))) ∧
    (advance_iop_subsidence Rair Cpair nlevs dt pmid pint pdel omega u v T Q).v j
      = v j - dt / (2 * pdel j)
          * (iop_omega_int nlevs pmid pint omega (j+1) * (v (j+1) - v j)
             + iop_omega_int nlevs pmid pint omega j * (v j - v (j-1))) ∧
    (advance_iop_subsidence Rair Cpair nlevs dt pmid pint pdel omega u v T Q).T j
      = (T j - dt / (2 * pdel j)
          * (iop_omega_int nlevs pmid pint omega (j+1) * (T (j+1) - T j)
             + iop_omega_int nlevs pmid pint omega j * (T j - T (j-1))))
        + dt * omega j * T j * Rair / (Cpair * pmid j) ∧
    (advance_iop_subsidence Rair Cpair nlevs dt pmid pint pdel omega u v T Q).Q iq j
      = Q iq j - dt / (2 * pdel j)
          * (iop_omega_int nlevs pmid pint omega (j+1) * (Q iq (j+1) - Q iq j)
             + iop_omega_int nlevs pmid pint omega j * (Q iq j - Q iq (j-1))) := by
  have hnk : ¬ (k = 0) := by omega
  have hkn : ¬ (k = nlevs) := by omega
  have h0n : ¬ ((0:ℕ) = nlevs) := by omega
  have hjn : j < nlevs := by omega
  refine ⟨⟨by simp [iop_omega_int], ?_, ?_⟩, ?_, ?_, ?_, ?_, ?_, ?_⟩
  · unfold iop_omega_int
    simp
  · unfold iop_omega_int
    simp [hnk, hkn, hk]
  · show iop_subs_update nlevs dt pdel _ (iop_midpoint_delta u) u j = _
    rw [iop_subs_update_interior nlevs j dt _ _ _ _ hj1 hj]
    simp only [iop_midpoint_delta]
    rw [Nat.sub_add_cancel hj1]
  · show iop_subs_update nlevs dt pdel _ (iop_midpoint_delta u) u 0 = _
    rw [iop_subs_update_top nlevs dt _ _ _ _ h2]
    rfl
  · show iop_subs_update nlevs dt pdel _ (iop_midpoint_delta u) u (nlevs-1) = _
    rw [iop_subs_update_bot nlevs dt _ _ _ _ h2]
    simp only [iop_midpoint_delta]
    rw [Nat.sub_add_cancel (by omega : 1 ≤ nlevs - 1)]
  · show iop_subs_update nlevs dt pdel _ (iop_midpoint_delta v) v j = _
    rw [iop_subs_update_interior nlevs j dt _ _ _ _ hj1 hj]
    simp only [iop_midpoint_delta]
    rw [Nat.sub_add_cancel hj1]
  · show (if j < nlevs then
        iop_subs_update nlevs dt pdel _ (iop_midpoint_delta T) T j
          + dt * omega j * T j * Rair / (Cpair * pmid j)
      else iop_subs_update nlevs dt pdel _ (iop_midpoint_delta T) T j) = _
    rw [if_pos hjn, iop_subs_update_interior nlevs j dt _ _ _ _ hj1 hj]
    simp only [iop_midpoint_delta]
    rw [Nat.sub_add_cancel hj1]
  · show iop_subs_update nlevs dt pdel _ (iop_midpoint_delta (Q iq)) (Q iq) j = _
    rw [iop_subs_update_interior nlevs j dt _ _ _ _ hj1 hj]
    simp only [iop_midpoint_delta]
    rw [Nat.sub_add_cancel hj1]

/-- C5 witness: the amended theorem applied at nlevs = 3, k = 1, j = 1,
iq = 0, dt = 1, a constant unit omega and concrete pressure and state
columns; the interpolated interface value of a constant unit omega is 1. -/
theorem C5_witness :
    2 ≤ 3 ∧ (1:ℕ) ≤ 1 ∧ (1:ℕ) ≤ 3 - 1 ∧ 1 < 3 - 1 ∧
    iop_omega_int 3 (fun n => (n:ℚ) + 1) (fun n => (n:ℚ) + 1/2)
      (fun _ => 1) 1 = 1 ∧
    iop_omega_int 3 (fun n => (n:ℚ) + 1) (fun n => (n:ℚ) + 1/2)
      (fun _ => 1) 0 = 0 := by
  have h := C5_advance_iop_subsidence_amended 2 7 3 1 1 0 1
    (fun n => (n:ℚ) + 1) (fun n => (n:ℚ) + 1/2) (fun _ => 1) (fun _ => 1)
    (fun n => (n:ℚ)) (fun n => (n:ℚ)) (fun n => (n:ℚ)) (fun _ n => (n:ℚ))
    (by norm_num) (by norm_num) (by norm_num) (by norm_num) (by norm_num)
  refine ⟨by norm_num, by norm_num, by norm_num, by norm_num, ?_, ?_⟩
  · rw [h.1.2.2]; ring
  · exact h.1.1

/-- C5 counterexample: the claimed top-layer update — subtract
dt/(2*dp(0)) * omega_int(1)*DeltaX(0), i.e. the delta X(1) - X(0) — is
false of the code: the source gathers the delta at the clamped index
max(k,1), so at the top layer it subtracts
dt/(2*dp(0)) * omega_int(1)*DeltaX(1). At nlevs = 3, dt = 1,
p_mid(n) = n+1, p_int(n) = n+1/2 (so omega_int(1) = 1 for constant unit
omega), pdel = 1 and u(n) = n^2, the code produces u(0) = -3/2 while the
claimed formula gives -1/2. -/
theorem C5_counterexample_top_layer_delta :
    (advance_iop_subsidence 2 7 3 1 (fun n => (n:ℚ) + 1)
        (fun n => (n:ℚ) + 1/2) (fun _ => 1) (fun _ => 1)
        (fun n => (n:ℚ) * (n:ℚ)) (fun n => (n:ℚ)) (fun n => (n:ℚ))
        (fun _ n => (n:ℚ))).u 0 = -(3/2) ∧
    (fun n => (n:ℚ) * (n:ℚ)) 0 - (1:ℚ) / (2 * 1)
        * (iop_omega_int 3 (fun n => (n:ℚ) + 1) (fun n => (n:ℚ) + 1/2)
            (fun _ => 1) 1
           * ((fun n => (n:ℚ) * (n:ℚ)) 1 - (fun n => (n:ℚ) * (n:ℚ)) 0))
      = -(1/2) ∧
    (-(3/2) : ℚ) ≠ -(1/2) := by
  refine ⟨?_, ?_, by norm_num⟩ <;>
    simp [advance_iop_subsidence, iop_subs_update, iop_omega_int,
      iop_midpoint_delta] <;>
    norm_num

/-- C6 counterexample: the constant T1 of the source is computed from the
float literal 0.0065f, whose binary32 value 13958644/2^31 differs from
0.0065 = 13/2000, so T1 does not equal 0.0065*TREF*cp/g exactly;
evaluated at cp = 1005 and g = 9.80616. -/
theorem C6_counterexample_T1_not_exact :
    elemOpsT1 1005 (980616/100000)
      ≠ (13/2000 : ℚ) * TREF * 1005 / (980616/100000) := by
  unfold elemOpsT1 float0_0065 TREF
  norm_num

/-- C6 (amended): compute_theta_ref computes theta_ref = T0/exner(p) + T1
per level with exner(p) = (p/p0)^kappa, where TREF = 288.0,
T1 = c*TREF*cp/g with c = 13958644/2^31 the binary32 value of the float
literal 0.0065f, and T0 = TREF - T1 exactly; in particular, for p = p0
the computed theta_ref equals TREF. -/
theorem C6_theta_ref_amended (cp g kappa p0 : ℝ) (hp0 : p0 ≠ 0) :
    elemOpsT1R cp g = ((13958644 / 2^31 : ℚ) : ℝ) * 288 * cp / g ∧
    elemOpsT0R cp g = ((TREF : ℚ) : ℝ) - elemOpsT1R cp g ∧
    compute_theta_ref cp g kappa p0 p0 = ((TREF : ℚ) : ℝ) := by
  refine ⟨by norm_num [elemOpsT1R, float0_0065, TREF], rfl, ?_⟩
  unfold compute_theta_ref
  rw [div_self hp0, Real.one_rpow]
  unfold elemOpsT0R
  ring

/-- C6 witness: the amended theorem applied at cp = 1005, g = 9.80616,
kappa = 2/7 and p0 = 100000. -/
theorem C6_witness :
    (100000 : ℝ) ≠ 0 ∧
    compute_theta_ref 1005 (980616/100000) (2/7) 100000 100000 = 288 := by
  have h := C6_theta_ref_amended 1005 (980616/100000) (2/7) 100000
    (by norm_num)
  refine ⟨by norm_num, ?_⟩
  rw [h.2.2]
  norm_num [TREF]

theorem io_test_samples_ten (v : ℚ) :
    io_test_samples v 10 =
      [v+1, v+1+1, v+1+1+1, v+1+1+1+1, v+1+1+1+1+1, v+1+1+1+1+1+1,
       v+1+1+1+1+1+1+1, v+1+1+1+1+1+1+1+1, v+1+1+1+1+1+1+1+1+1,
       v+1+1+1+1+1+1+1+1+1+1] :=
  rfl

theorem foldl_min_of_le (a : ℚ) (l : List ℚ) (h : ∀ x ∈ l, a ≤ x) :
    l.foldl min a = a := by
  induction l generalizing a with
  | nil => rfl
  | cons x xs ih =>
    have hx : min a x = a := min_eq_left (h x (by simp))
    simp only [List.foldl_cons, hx]
    exact ih a (fun y hy => h y (by simp [hy]))

/-- C1 counterexample: in the I/O test the field of column ii starts at
ii and is incremented by dt = 1.0 before each of the 10 output steps, so
the Instant output for column 0 is 10 and the Average output is 11/2 —
not within relative tolerance 1e-6 of the claimed 9 + ii and 4.5 + ii at
ii = 0. -/
theorem C1_counterexample_outputs_off_by_one :
    io_instant (io_test_init 0) (io_test_samples (io_test_init 0) 10) = 10 ∧
    ¬ (|io_instant (io_test_init 0) (io_test_samples (io_test_init 0) 10)
        - 9| ≤ 9 / 1000000) ∧
    io_average (io_test_samples (io_test_init 0) 10) = 11/2 ∧
    ¬ (|io_average (io_test_samples (io_test_init 0) 10)
        - 9/2| ≤ (9/2) / 1000000) := by
  refine ⟨?_, ?_, ?_, ?_⟩ <;>
    simp [io_instant, io_average, io_test_init, io_test_samples_ten,
      List.getLastD, abs] <;>
    norm_num

/-- C1 (amended): for the I/O subsystem driven as in the test — column ii
initialized to ii, incremented by dt = 1.0 before each of the 10 output
steps, so its sampled value at step k is ii + k for k = 1..10 — the
Instant and Max reduction outputs after the 10 steps equal 10 + ii, the
Min output equals ii (the value at output-manager initialization), and
the Average output equals 5.5 + ii, for every column ii (exactly, hence
within relative tolerance 1e-6). -/
theorem C1_io_reductions_amended (ii : ℚ) :
    io_instant (io_test_init ii) (io_test_samples (io_test_init ii) 10)
      = 10 + ii ∧
    io_max (io_test_init ii) (io_test_samples (io_test_init ii) 10)
      = 10 + ii ∧
    io_min (io_test_init ii) (io_test_samples (io_test_init ii) 10) = ii ∧
    io_average (io_test_samples (io_test_init ii) 10) = 11/2 + ii := by
  unfold io_test_init
  rw [io_test_samples_ten]
  refine ⟨?_, ?_, ?_, ?_⟩
  · simp [io_instant, List.getLastD]
    ring
  · unfold io_max
    have h1 : max ii (ii+1) = ii+1 := max_eq_right (by linarith)
    have h2 : max (ii+1) (ii+1+1) = ii+1+1 := max_eq_right (by linarith)
    have h3 : max (ii+1+1) (ii+1+1+1) = ii+1+1+1 :=
      max_eq_right (by linarith)
    have h4 : max (ii+1+1+1) (ii+1+1+1+1) = ii+1+1+1+1 :=
      max_eq_right (by linarith)
    have h5 : max (ii+1+1+1+1) (ii+1+1+1+1+1) = ii+1+1+1+1+1 :=
      max_eq_right (by linarith)
    have h6 : max (ii+1+1+1+1+1) (ii+1+1+1+1+1+1) = ii+1+1+1+1+1+1 :=
      max_eq_right (by linarith)
    have h7 : max (ii+1+1+1+1+1+1) (ii+1+1+1+1+1+1+1)
        = ii+1+1+1+1+1+1+1 := max_eq_right (by linarith)
    have h8 : max (ii+1+1+1+1+1+1+1) (ii+1+1+1+1+1+1+1+1)
        = ii+1+1+1+1+1+1+1+1 := max_eq_right (by linarith)
    have h9 : max (ii+1+1+1+1+1+1+1+1) (ii+1+1+1+1+1+1+1+1+1)
        = ii+1+1+1+1+1+1+1+1+1 := max_eq_right (by linarith)
    have h10 : max (ii+1+1+1+1+1+1+1+1+1) (ii+1+1+1+1+1+1+1+1+1+1)
        = ii+1+1+1+1+1+1+1+1+1+1 := max_eq_right (by linarith)
    simp only [List.foldl_cons, List.foldl_nil, h1, h2, h3, h4, h5, h6, h7,
      h8, h9, h10]
    ring
  · exact foldl_min_of_le ii _ (by intro x hx; simp at hx; rcases hx with
      h|h|h|h|h|h|h|h|h|h <;> rw [h] <;> linarith)
  · unfold io_average
    simp only [List.foldl_cons, List.foldl_nil, List.length_cons,
      List.length_nil]
    push_cast
    ring

end E3SM
